import Mathlib

/-!
Shallow embedding of the mixid pipeline (src/main.py).

The embedded fragments:
* `ts_from_idx` — src/main.py lines 48-50.
* request validation of the `/identify` endpoint — lines 54-57.
* the segment cap `segments[:MAX_SEGMENTS]` — line 156.
* the per-segment classification-and-reduction loop — lines 158-207,
  folded over the ordered per-segment call results.

Machine integers are `Nat` (Python ints are unbounded, all values here are
non-negative). Strings are Lean `String`; Python falsiness of strings and of
`None` is made explicit. The JSON payload of one AudD call is modelled by the
fields the loop reads: an optional `result` dict with optional `artist`,
`title` and a nested spotify link that can be absent, malformed (any nested
`.get` raising, caught by the bare `except`) or a well-formed chain ending in
an optional url string.
-/

namespace Mixid

/-- `f"{n:02}"` for a non-negative int: zero-pad to at least two digits. -/
def pad2 (n : Nat) : String :=
  if n < 10 then "0" ++ toString n else toString n

/-- src/main.py lines 48-50: `mm, ss = divmod(idx * step, 60)`,
`f"{mm:02}:{ss:02}"`. -/
def ts_from_idx (idx step : Nat) : String :=
  pad2 (idx * step / 60) ++ ":" ++ pad2 (idx * step % 60)

/-- The nested `result["spotify"]["external_urls"]["spotify"]` access of
lines 190-197: the metadata is absent, malformed (an attribute error inside
the chained `.get`s, swallowed by the bare `except`), or a well-formed chain
holding an optional url. -/
inductive JsonLink where
  | absent
  | malformed
  | link (url : Option String)
deriving DecidableEq, Repr

/-- The fields of `payload["result"]` that the loop reads (lines 179-197). -/
structure MatchResult where
  artist : Option String
  title : Option String
  spotify : JsonLink
deriving DecidableEq, Repr

/-- Outcome of one AudD call for one segment: the request or JSON decode
raised (lines 159-173, `CallFailed`), or a payload whose `result` field is
either missing/falsy (`response none`, a clean no-match) or present. -/
inductive CallResult where
  | failed
  | response (result : Option MatchResult)
deriving DecidableEq, Repr

/-- The `IdentifyResult` pydantic model (lines 35-38). -/
structure IdentifyResult where
  time : String
  track : String
  spotify : Option String
deriving DecidableEq, Repr

/-- Lines 189-197: the chained optional access, `None` on absence or on any
raised error. -/
def extractSpotify : JsonLink → Option String
  | .absent => none
  | .malformed => none
  | .link url => url

/-- Line 184: `track_title = f"{artist} – {title}"` (en dash). -/
def trackTitleOf (artist title : String) : String :=
  artist ++ " – " ++ title

/-- Python falsiness of an optional string (`not x`): `None` and `""` are
falsy. -/
def falsyStr : Option String → Bool
  | none => true
  | some s => s.isEmpty

/-- One iteration of the loop of lines 158-205, for the segment at `item.1`
with call result `item.2`, acting on the state `(last_title, results)`.
A failed call (`continue` in the `except` at line 173), a missing/falsy
`result` (line 176), a missing or empty artist or title (line 181), and a
track title equal to `last_title` (line 185) all leave the state unchanged;
otherwise the entry is appended and `last_title` is set. -/
def scanStep (step : Nat) (acc : Option String × List IdentifyResult)
    (item : Nat × CallResult) : Option String × List IdentifyResult :=
  match item.2 with
  | .failed => acc
  | .response none => acc
  | .response (some res) =>
    match res.artist, res.title with
    | some artist, some title =>
      if artist.isEmpty || title.isEmpty then acc
      else
        let track_title := trackTitleOf artist title
        if some track_title = acc.1 then acc
        else (some track_title,
          acc.2 ++ [⟨ts_from_idx item.1 step, track_title,
                     extractSpotify res.spotify⟩])
    | _, _ => acc

/-- The whole loop of lines 154-205 over an explicitly indexed outcome list,
starting from `last_title = None`, `results = []`. -/
def scanOutcomes (step : Nat) (items : List (Nat × CallResult)) :
    Option String × List IdentifyResult :=
  items.foldl (scanStep step) (none, [])

/-- The loop applied to the enumerated outcome sequence
(`for idx, seg in enumerate(segs)`), keeping the emitted entries. -/
def runScan (step : Nat) (outcomes : List CallResult) : List IdentifyResult :=
  (scanOutcomes step outcomes.enum).2

/-- The sentinel entry of line 207. -/
def sentinel : IdentifyResult :=
  ⟨"00:00", "No matches found", none⟩

/-- Line 207: `return results or [IdentifyResult(time="00:00",
track="No matches found")]`. -/
def identifyReduce (step : Nat) (outcomes : List CallResult) :
    List IdentifyResult :=
  let results := runScan step outcomes
  if results.isEmpty then [sentinel] else results

/-- Line 156: `segs = segments[:MAX_SEGMENTS]`. -/
def capSegments (maxSegments : Nat) (segments : List α) : List α :=
  List.take maxSegments segments

/-- Classification of the capped segments, one external call per kept
segment in index order (lines 156-173 abstracted over the network). -/
def classifySegs (classify : α → CallResult) (maxSegments : Nat)
    (segments : List α) : List CallResult :=
  (capSegments maxSegments segments).map classify

/-- The post-validation pipeline: cap, classify each kept segment in order,
reduce (lines 149-207). -/
def identifyPipeline (classify : α → CallResult) (step maxSegments : Nat)
    (segments : List α) : List IdentifyResult :=
  identifyReduce step (classifySegs classify maxSegments segments)

/-- Lines 54-57: reject a falsy or short url with status 400, then a falsy
`AUDD_API_TOKEN` with status 500, before any pipeline work. -/
def validateRequest (url : String) (token : Option String) :
    Except Nat Unit :=
  if url.isEmpty || url.length < 8 then .error 400
  else if falsyStr token then .error 500
  else .ok ()

/-- The `/identify` endpoint body (lines 52-207): validation first; only a
validated request runs the pipeline. -/
def identifyEndpoint (url : String) (token : Option String)
    (classify : α → CallResult) (step maxSegments : Nat)
    (segments : List α) : Except Nat (List IdentifyResult) :=
  match validateRequest url token with
  | .error code => .error code
  | .ok _ => .ok (identifyPipeline classify step maxSegments segments)

/-- A matched call result with the given artist and title and no nested
spotify metadata; shorthand for tests and statements. -/
def matched (artist title : String) : CallResult :=
  .response (some ⟨some artist, some title, .absent⟩)

/-- Structural-recursion form of the loop of lines 158-205: process the
remaining call results in order, incrementing the segment index. -/
def scanLoop (step idx : Nat) (acc : Option String × List IdentifyResult) :
    List CallResult → Option String × List IdentifyResult
  | [] => acc
  | c :: rest => scanLoop step (idx + 1) (scanStep step acc (idx, c)) rest

/-- Instrumented variant of `scanStep` that also records the source segment
index of each emitted entry; used to state the ordering invariant. Identical
to `scanStep` except for the recorded index. -/
def scanStepIdx (step : Nat)
    (acc : Option String × List (Nat × IdentifyResult))
    (item : Nat × CallResult) :
    Option String × List (Nat × IdentifyResult) :=
  match item.2 with
  | .failed => acc
  | .response none => acc
  | .response (some res) =>
    match res.artist, res.title with
    | some artist, some title =>
      if artist.isEmpty || title.isEmpty then acc
      else
        let track_title := trackTitleOf artist title
        if some track_title = acc.1 then acc
        else (some track_title,
          acc.2 ++ [(item.1, ⟨ts_from_idx item.1 step, track_title,
                     extractSpotify res.spotify⟩)])
    | _, _ => acc

/-- Instrumented loop, mirror of `scanLoop`. -/
def scanLoopIdx (step idx : Nat)
    (acc : Option String × List (Nat × IdentifyResult)) :
    List CallResult → Option String × List (Nat × IdentifyResult)
  | [] => acc
  | c :: rest => scanLoopIdx step (idx + 1) (scanStepIdx step acc (idx, c)) rest

/-- Emitted entries with their source segment indices. -/
def runScanIdx (step : Nat) (outcomes : List CallResult) :
    List (Nat × IdentifyResult) :=
  (scanLoopIdx step 0 (none, []) outcomes).2

/-! ### Bridge between the `enumerate` fold and the recursive loop -/

lemma foldl_enumFrom_eq_scanLoop (step : Nat) (l : List CallResult)
    (n : Nat) (acc : Option String × List IdentifyResult) :
    (List.enumFrom n l).foldl (scanStep step) acc = scanLoop step n acc l := by
  induction l generalizing n acc with
  | nil => rfl
  | cons c rest ih => simpa [scanLoop] using ih (n + 1) (scanStep step acc (n, c))

lemma runScan_eq_scanLoop (step : Nat) (outcomes : List CallResult) :
    runScan step outcomes = (scanLoop step 0 (none, []) outcomes).2 := by
  unfold runScan scanOutcomes
  rw [List.enum, foldl_enumFrom_eq_scanLoop]

/-! ### Skip behaviour of non-emitting outcomes -/

lemma scanStep_failed (step : Nat) (acc : Option String × List IdentifyResult)
    (idx : Nat) : scanStep step acc (idx, .failed) = acc := rfl

lemma scanStep_noResult (step : Nat) (acc : Option String × List IdentifyResult)
    (idx : Nat) : scanStep step acc (idx, .response none) = acc := rfl

lemma scanLoop_skip (step : Nat) (l : List CallResult) (idx : Nat)
    (acc : Option String × List IdentifyResult)
    (h : ∀ c ∈ l, c = CallResult.failed ∨ c = CallResult.response none) :
    scanLoop step idx acc l = acc := by
  induction l generalizing idx acc with
  | nil => rfl
  | cons c rest ih =>
    have hc := h c (List.mem_cons_self ..)
    have hstep : scanStep step acc (idx, c) = acc := by
      rcases hc with rfl | rfl
      · exact scanStep_failed ..
      · exact scanStep_noResult ..
    rw [scanLoop, hstep]
    exact ih _ _ fun d hd => h d (List.mem_cons_of_mem _ hd)

/-- The emitted-results component only grows along the loop. -/
lemma scanStep_snd_grows (step : Nat)
    (acc : Option String × List IdentifyResult) (item : Nat × CallResult) :
    ∃ ext, (scanStep step acc item).2 = acc.2 ++ ext := by
  obtain ⟨idx, c⟩ := item
  cases c with
  | failed => exact ⟨[], (List.append_nil _).symm⟩
  | response r =>
    cases r with
    | none => exact ⟨[], (List.append_nil _).symm⟩
    | some res =>
      obtain ⟨a, t, sp⟩ := res
      cases a with
      | none => exact ⟨[], (List.append_nil _).symm⟩
      | some artist =>
        cases t with
        | none => exact ⟨[], (List.append_nil _).symm⟩
        | some title =>
          by_cases h1 : artist.isEmpty || title.isEmpty
          · exact ⟨[], by simp [scanStep, h1]⟩
          · by_cases h2 : some (trackTitleOf artist title) = acc.1
            · exact ⟨[], by simp [scanStep, h1, h2]⟩
            · exact ⟨[⟨ts_from_idx idx step, trackTitleOf artist title,
                       extractSpotify sp⟩], by simp [scanStep, h1, h2]⟩

lemma scanLoop_snd_grows (step : Nat) (l : List CallResult) (idx : Nat)
    (acc : Option String × List IdentifyResult) :
    ∃ ext, (scanLoop step idx acc l).2 = acc.2 ++ ext := by
  induction l generalizing idx acc with
  | nil => exact ⟨[], (List.append_nil _).symm⟩
  | cons c rest ih =>
    obtain ⟨e₁, he₁⟩ := scanStep_snd_grows step acc (idx, c)
    obtain ⟨e₂, he₂⟩ := ih (idx + 1) (scanStep step acc (idx, c))
    exact ⟨e₁ ++ e₂, by rw [scanLoop, he₂, he₁, List.append_assoc]⟩

lemma scanLoop_append (step : Nat) (l₁ l₂ : List CallResult) (idx : Nat)
    (acc : Option String × List IdentifyResult) :
    scanLoop step idx acc (l₁ ++ l₂) =
      scanLoop step (idx + l₁.length) (scanLoop step idx acc l₁) l₂ := by
  induction l₁ generalizing idx acc with
  | nil => simp [scanLoop]
  | cons c rest ih =>
    rw [List.cons_append, scanLoop, ih, scanLoop]
    congr 1
    simp only [List.length_cons]
    omega

lemma pad2_length_of_lt_60 {n : Nat} (h : n < 60) : (pad2 n).length = 2 := by
  interval_cases n <;> rfl

/-! ## Claim theorems -/

/-- C2. Timestamp formatting: for every segment index and window length, the
emitted string is `pad2 (i*w / 60) ++ ":" ++ pad2 (i*w % 60)`, the two
components reassemble to `i*w` seconds, the seconds field is below 60 and
rendered with exactly two digits, and there is no hours field; index 5 with
window 30 renders "02:30", index 0 renders "00:00" for every window, and
minutes may exceed 59 (index 120, window 30 renders "60:00"). -/
theorem timestamp_formatting :
    (∀ idx step : Nat, ∃ mm ss : Nat,
      mm = idx * step / 60 ∧ ss = idx * step % 60 ∧
      ts_from_idx idx step = pad2 mm ++ ":" ++ pad2 ss ∧
      60 * mm + ss = idx * step ∧ ss < 60 ∧ (pad2 ss).length = 2) ∧
    ts_from_idx 5 30 = "02:30" ∧
    (∀ step : Nat, ts_from_idx 0 step = "00:00") ∧
    ts_from_idx 120 30 = "60:00" := by
  refine ⟨fun idx step => ⟨idx * step / 60, idx * step % 60, rfl, rfl, rfl,
    Nat.div_add_mod .., Nat.mod_lt _ (by omega),
    pad2_length_of_lt_60 (Nat.mod_lt _ (by omega))⟩, rfl, fun step => ?_, rfl⟩
  show pad2 (0 * step / 60) ++ ":" ++ pad2 (0 * step % 60) = "00:00"
  rw [Nat.zero_mul]
  rfl

/-- C3. Empty-result sentinel: if every outcome is a failed call or a
no-match response, the returned tracklist is exactly the single sentinel
entry; and the returned tracklist is never the empty sequence. -/
theorem empty_result_sentinel (step : Nat) (outcomes : List CallResult) :
    ((∀ c ∈ outcomes, c = CallResult.failed ∨ c = CallResult.response none) →
      identifyReduce step outcomes = [sentinel]) ∧
    (runScan step outcomes = [] → identifyReduce step outcomes = [sentinel]) ∧
    identifyReduce step outcomes ≠ [] := by
  refine ⟨?_, ?_, ?_⟩
  · intro h
    have hscan : runScan step outcomes = [] := by
      rw [runScan_eq_scanLoop, scanLoop_skip step outcomes 0 (none, []) h]
    simp [identifyReduce, hscan]
  · intro hscan
    simp [identifyReduce, hscan]
  · simp only [identifyReduce]
    split
    · simp
    · rename_i hne
      simpa [List.isEmpty_iff] using hne

/-- Witness for C3 at a concrete all-failing outcome sequence. -/
theorem empty_result_sentinel_witness :
    identifyReduce 30 [CallResult.failed, CallResult.response none] =
      [sentinel] ∧
    identifyReduce 30 [CallResult.failed, CallResult.response none] ≠ [] := by
  have h := empty_result_sentinel 30 [CallResult.failed, CallResult.response none]
  exact ⟨h.1 (by decide), h.2.2⟩

/-- C5 counterexample. At the concrete valid-length url "12345678" with the
recognition credential absent, the endpoint rejects with status 500, which is
not in the 4xx class — refuting the claim that an absent credential maps to a
4xx-class signal. -/
theorem config_error_status_counterexample :
    validateRequest "12345678" none = Except.error 500 ∧
    ¬(400 ≤ 500 ∧ 500 < 500) := by
  exact ⟨rfl, by omega⟩

/-- C5 amended. A malformed/too-short locator is rejected with client error
400 (4xx class) and an absent recognition credential is rejected with status
500 (5xx class, not 4xx), in both cases before any pipeline work is invoked:
the endpoint's result is the bare error code, for every classifier, window
length, cap and segment list. -/
theorem request_error_mapping {α : Type} (url : String) (token : Option String)
    (classify : α → CallResult) (step m : Nat) (segments : List α) :
    (url.length < 8 →
      identifyEndpoint url token classify step m segments = .error 400) ∧
    (8 ≤ url.length → falsyStr token = true →
      identifyEndpoint url token classify step m segments = .error 500) := by
  constructor
  · intro h
    simp [identifyEndpoint, validateRequest, h]
  · intro h8 htok
    have hne : url.isEmpty = false := by
      rcases he : url.isEmpty with _ | _
      · rfl
      · have : url = "" := (String.isEmpty_iff url).mp he
        subst this
        simp [String.length] at h8
    have hlt : ¬url.length < 8 := by omega
    simp [identifyEndpoint, validateRequest, hne, hlt, htok]

/-- Witness for C5's amended theorem at concrete inputs: a 7-character url is
rejected with 400; an 8-character url with no credential is rejected with
500. -/
theorem request_error_mapping_witness :
    identifyEndpoint "1234567" (some "tok") (fun _ : Unit => .failed) 30 100 []
      = .error 400 ∧
    identifyEndpoint "12345678" none (fun _ : Unit => .failed) 30 100 []
      = .error 500 := by
  refine ⟨(request_error_mapping "1234567" (some "tok")
      (fun _ : Unit => .failed) 30 100 []).1 (by decide),
    (request_error_mapping "12345678" none
      (fun _ : Unit => .failed) 30 100 []).2 (by decide) rfl⟩

/-- C10. The minimum accepted locator length is 8 characters: any url shorter
than 8 characters (the empty url included) is rejected with client error 400,
and any url of length at least 8 passes the url validation step — it is never
rejected with 400, and with a usable credential validation succeeds. -/
theorem url_min_length_threshold (url : String) (token : Option String) :
    (url.length < 8 → validateRequest url token = .error 400) ∧
    (8 ≤ url.length → validateRequest url token ≠ .error 400) ∧
    (8 ≤ url.length → falsyStr token = false →
      validateRequest url token = .ok ()) := by
  have hempty : url.isEmpty = true → url.length = 0 := by
    intro he
    have : url = "" := (String.isEmpty_iff url).mp he
    subst this
    rfl
  refine ⟨fun h => by simp [validateRequest, h], fun h8 => ?_, fun h8 htok => ?_⟩
  · have hne : url.isEmpty = false := by
      rcases he : url.isEmpty with _ | _
      · rfl
      · have := hempty he
        omega
    have hlt : ¬url.length < 8 := by omega
    simp only [validateRequest]
    rw [if_neg (by simp [hne, hlt])]
    split <;> simp
  · have hne : url.isEmpty = false := by
      rcases he : url.isEmpty with _ | _
      · rfl
      · have := hempty he
        omega
    have hlt : ¬url.length < 8 := by omega
    simp [validateRequest, hne, hlt, htok]

/-- Witness for C10: length-7 url rejected with 400; length-8 url accepted
with a credential present, and not 400-rejected even without one. -/
theorem url_min_length_threshold_witness :
    validateRequest "goo.gl/" (some "tok") = .error 400 ∧
    validateRequest "12345678" none ≠ .error 400 ∧
    validateRequest "https://youtu.be/x" (some "tok") = .ok () := by
  refine ⟨(url_min_length_threshold "goo.gl/" (some "tok")).1 (by decide),
    (url_min_length_threshold "12345678" none).2.1 (by decide),
    (url_min_length_threshold "https://youtu.be/x" (some "tok")).2.2
      (by decide) rfl⟩

/-- C1. Consecutive-run dedup: for outcomes
[Matched(A), Matched(A), Matched(B), Matched(A)] with A ≠ B, exactly three
entries are emitted — A stamped with index 0, B with index 2, A with index 3;
and in general a matched segment is a no-op precisely when its track title
equals the immediately preceding emitted title, so non-adjacent repeats are
re-emitted. -/
theorem dedup_consecutive_runs (step : Nat) (a₁ t₁ a₂ t₂ : String)
    (ha₁ : a₁.isEmpty = false) (ht₁ : t₁.isEmpty = false)
    (ha₂ : a₂.isEmpty = false) (ht₂ : t₂.isEmpty = false)
    (hne : trackTitleOf a₁ t₁ ≠ trackTitleOf a₂ t₂) :
    runScan step [matched a₁ t₁, matched a₁ t₁, matched a₂ t₂, matched a₁ t₁] =
      [⟨ts_from_idx 0 step, trackTitleOf a₁ t₁, none⟩,
       ⟨ts_from_idx 2 step, trackTitleOf a₂ t₂, none⟩,
       ⟨ts_from_idx 3 step, trackTitleOf a₁ t₁, none⟩] ∧
    (∀ (acc : Option String × List IdentifyResult) (idx : Nat) (a t : String),
      a.isEmpty = false → t.isEmpty = false →
      (scanStep step acc (idx, matched a t) = acc ↔
        some (trackTitleOf a t) = acc.1)) := by
  constructor
  · rw [runScan_eq_scanLoop]
    simp [scanLoop, scanStep, matched, extractSpotify, ha₁, ht₁, ha₂, ht₂,
      hne, Ne.symm hne]
  · intro acc idx a t ha ht
    constructor
    · intro heq
      by_contra hcon
      have hstep : scanStep step acc (idx, matched a t) =
          (some (trackTitleOf a t),
           acc.2 ++ [⟨ts_from_idx idx step, trackTitleOf a t, none⟩]) := by
        simp [scanStep, matched, extractSpotify, ha, ht, hcon]
      rw [hstep] at heq
      have hlen := congrArg (fun p => p.2.length) heq
      simp only [List.length_append, List.length_singleton] at hlen
      omega
    · intro heq
      simp [scanStep, matched, ha, ht, heq]

/-- Witness for C1 at concrete artists/titles A/B. -/
theorem dedup_consecutive_runs_witness :
    runScan 30 [matched "A" "a", matched "A" "a",
                matched "B" "b", matched "A" "a"] =
      [⟨ts_from_idx 0 30, trackTitleOf "A" "a", none⟩,
       ⟨ts_from_idx 2 30, trackTitleOf "B" "b", none⟩,
       ⟨ts_from_idx 3 30, trackTitleOf "A" "a", none⟩] :=
  (dedup_consecutive_runs 30 "A" "a" "B" "b" rfl rfl rfl rfl (by decide)).1

/-- C7. A response whose match payload lacks the artist field or lacks the
title field is treated exactly like a no-match response: the loop state —
results and last emitted title — is unchanged, the same as for an outcome
with no result payload at all. -/
theorem partial_match_treated_unmatched (step : Nat)
    (acc : Option String × List IdentifyResult) (idx : Nat)
    (res : MatchResult) (h : res.artist = none ∨ res.title = none) :
    scanStep step acc (idx, .response (some res)) = acc ∧
    scanStep step acc (idx, .response (some res)) =
      scanStep step acc (idx, .response none) := by
  obtain ⟨a, t, sp⟩ := res
  have hskip : scanStep step acc (idx, .response (some ⟨a, t, sp⟩)) = acc := by
    rcases h with h | h
    · simp only at h
      subst h
      cases t <;> rfl
    · simp only at h
      subst h
      cases a <;> rfl
  exact ⟨hskip, hskip.trans (scanStep_noResult ..).symm⟩

/-- Witness for C7: a payload with a title but no artist leaves a nontrivial
loop state untouched. -/
theorem partial_match_treated_unmatched_witness :
    scanStep 30 (some "X", [⟨"00:00", "X", none⟩])
        (3, .response (some ⟨none, some "Tit", .absent⟩)) =
      (some "X", [⟨"00:00", "X", none⟩]) ∧
    scanStep 30 (some "X", [⟨"00:00", "X", none⟩])
        (3, .response (some ⟨none, some "Tit", .absent⟩)) =
      scanStep 30 (some "X", [⟨"00:00", "X", none⟩]) (3, .response none) :=
  partial_match_treated_unmatched 30 (some "X", [⟨"00:00", "X", none⟩]) 3
    ⟨none, some "Tit", .absent⟩ (Or.inl rfl)

/-- C8. When a response carries both a non-empty artist and a non-empty
title (and the track is not a consecutive repeat), an entry is emitted whose
title is "artist – title" with an en-dash separator and whose link is
extracted from the optional nested spotify metadata; absent or malformed
nested metadata degrades the link to none while the entry is still
emitted. -/
theorem matched_emit_with_link (step : Nat) (last : Option String)
    (results : List IdentifyResult) (idx : Nat) (artist title : String)
    (link : JsonLink)
    (ha : artist.isEmpty = false) (ht : title.isEmpty = false)
    (hne : some (trackTitleOf artist title) ≠ last) :
    scanStep step (last, results)
        (idx, .response (some ⟨some artist, some title, link⟩)) =
      (some (trackTitleOf artist title),
       results ++ [⟨ts_from_idx idx step, trackTitleOf artist title,
                    extractSpotify link⟩]) ∧
    trackTitleOf artist title = artist ++ " – " ++ title ∧
    (link = .absent ∨ link = .malformed → extractSpotify link = none) := by
  refine ⟨?_, rfl, ?_⟩
  · simp [scanStep, ha, ht, hne]
  · rintro (rfl | rfl) <;> rfl

/-- Witness for C8: malformed nested metadata degrades to a none link and
the entry is still emitted. -/
theorem matched_emit_with_link_witness :
    scanStep 30 (none, [])
        (2, .response (some ⟨some "Art", some "Tit", .malformed⟩)) =
      (some (trackTitleOf "Art" "Tit"),
       [⟨ts_from_idx 2 30, trackTitleOf "Art" "Tit",
         extractSpotify .malformed⟩]) ∧
    trackTitleOf "Art" "Tit" = "Art" ++ " – " ++ "Tit" ∧
    (JsonLink.malformed = .absent ∨ JsonLink.malformed = .malformed →
      extractSpotify .malformed = none) :=
  matched_emit_with_link 30 none [] 2 "Art" "Tit" .malformed rfl rfl
    (by decide)

/-- C9. Segment cap: the capped list keeps exactly the first
min(max_segments, length) segments in order; positions at or beyond the cap
are never present, so they are never classified; a 5-segment list with cap 2
keeps exactly segments 0 and 1, and classification touches only the kept
segments. -/
theorem segment_cap_respected {α : Type} (m : Nat) (segments : List α)
    (classify : α → CallResult) :
    (capSegments m segments).length = min m segments.length ∧
    (∀ i : Nat, i < m → (capSegments m segments)[i]? = segments[i]?) ∧
    (∀ i : Nat, m ≤ i → (capSegments m segments)[i]? = none) ∧
    (∀ l₂ : List α, segments.take m = l₂.take m →
      classifySegs classify m segments = classifySegs classify m l₂) ∧
    (∀ s₀ s₁ s₂ s₃ s₄ : α,
      classifySegs classify 2 [s₀, s₁, s₂, s₃, s₄] =
        [classify s₀, classify s₁]) ∧
    capSegments 2 [0, 1, 2, 3, 4] = [0, 1] := by
  refine ⟨List.length_take .., fun i hi => List.getElem?_take_of_lt hi,
    fun i hi => ?_, fun l₂ h => ?_, fun s₀ s₁ s₂ s₃ s₄ => rfl, rfl⟩
  · apply List.getElem?_eq_none
    calc (capSegments m segments).length = min m segments.length :=
          List.length_take ..
      _ ≤ m := Nat.min_le_left ..
      _ ≤ i := hi
  · simp only [classifySegs, capSegments, h]

/-- Witness for C9 at a concrete 5-element segment list with cap 2. -/
theorem segment_cap_respected_witness :
    (capSegments 2 [10, 11, 12, 13, 14])[1]? = some 11 ∧
    (capSegments 2 [10, 11, 12, 13, 14])[3]? = none ∧
    (capSegments 2 [10, 11, 12, 13, 14]).length = min 2 5 := by
  have h := segment_cap_respected 2 [10, 11, 12, 13, 14]
    (fun _ : Nat => CallResult.failed)
  exact ⟨(h.2.1 1 (by decide)).trans rfl, h.2.2.1 3 (by decide), h.1⟩

/-- C4 counterexample. Replacing the first matched segment of
[Matched(A), Matched(A)] by a failed call changes the surviving segment's
dedup decision and timestamp: the original run emits A stamped "00:00" (from
segment 0, segment 1 deduped), the replaced run emits A stamped "00:30"
(segment 1 now emitted) — so one CallFailed can alter surrounding segments'
emitted entries. -/
theorem call_failed_replacement_counterexample :
    List.set [matched "A" "a", matched "A" "a"] 0 CallResult.failed =
      [CallResult.failed, matched "A" "a"] ∧
    runScan 30 [matched "A" "a", matched "A" "a"] =
      [⟨"00:00", "A – a", none⟩] ∧
    runScan 30 [CallResult.failed, matched "A" "a"] =
      [⟨"00:30", "A – a", none⟩] ∧
    ([⟨"00:00", "A – a", none⟩] : List IdentifyResult) ≠
      [⟨"00:30", "A – a", none⟩] := by
  refine ⟨rfl, rfl, rfl, by decide⟩

/-- C4 amended. Unmatched and CallFailed outcomes neither emit an entry nor
reset the last emitted title; replacing one segment's outcome by CallFailed
never changes the loop state reached before that segment, and both runs only
extend the entries emitted by the preceding segments; if the replaced
outcome was a no-op (in particular a match skipped by dedup), the whole
output is unchanged; and [Matched(A), CallFailed, Matched(A)] emits a single
entry for A at index 0. (When the replaced match had itself been emitted,
later segments' dedup decisions and entries may change.) -/
theorem call_failed_isolation_amended (step : Nat)
    (outcomes : List CallResult) (i : Nat) :
    (∀ (acc : Option String × List IdentifyResult) (idx : Nat),
      scanStep step acc (idx, .failed) = acc ∧
      scanStep step acc (idx, .response none) = acc) ∧
    scanLoop step 0 (none, []) ((outcomes.set i CallResult.failed).take i) =
      scanLoop step 0 (none, []) (outcomes.take i) ∧
    (∃ ext, runScan step (outcomes.set i CallResult.failed) =
      (scanLoop step 0 (none, []) (outcomes.take i)).2 ++ ext) ∧
    (∃ ext, runScan step outcomes =
      (scanLoop step 0 (none, []) (outcomes.take i)).2 ++ ext) ∧
    (∀ c, outcomes[i]? = some c →
      scanStep step (scanLoop step 0 (none, []) (outcomes.take i)) (i, c) =
        scanLoop step 0 (none, []) (outcomes.take i) →
      runScan step (outcomes.set i CallResult.failed) =
        runScan step outcomes) ∧
    (∀ a t : String, a.isEmpty = false → t.isEmpty = false →
      runScan step [matched a t, CallResult.failed, matched a t] =
        [⟨ts_from_idx 0 step, trackTitleOf a t, none⟩]) := by
  have htake : (outcomes.set i CallResult.failed).take i = outcomes.take i := by
    rw [List.set_take]
    exact List.set_eq_of_length_le (by rw [List.length_take]; omega)
  have hgrow : ∀ l' : List CallResult, l'.take i = outcomes.take i →
      ∃ ext, runScan step l' =
        (scanLoop step 0 (none, []) (outcomes.take i)).2 ++ ext := by
    intro l' hl
    have hsplit : runScan step l' =
        (scanLoop step (0 + (outcomes.take i).length)
          (scanLoop step 0 (none, []) (outcomes.take i)) (l'.drop i)).2 := by
      rw [runScan_eq_scanLoop]
      conv_lhs => rw [← List.take_append_drop i l']
      rw [scanLoop_append, hl]
    rw [hsplit]
    exact scanLoop_snd_grows ..
  refine ⟨fun acc idx => ⟨rfl, rfl⟩, by rw [htake], hgrow _ htake, hgrow _ rfl,
    ?_, ?_⟩
  · intro c hc hstep
    have hlen : i < outcomes.length := (List.getElem?_eq_some_iff.mp hc).1
    have hgetc : outcomes[i] = c := (List.getElem?_eq_some_iff.mp hc).2
    have hlentake : (outcomes.take i).length = i := by
      rw [List.length_take]
      omega
    have hdecomp : outcomes = outcomes.take i ++ c :: outcomes.drop (i + 1) := by
      conv_lhs => rw [← List.take_append_drop i outcomes]
      rw [List.drop_eq_getElem_cons hlen, hgetc]
    have hdecomp' : outcomes.set i CallResult.failed =
        outcomes.take i ++ CallResult.failed :: outcomes.drop (i + 1) :=
      List.set_eq_take_cons_drop _ hlen
    rw [runScan_eq_scanLoop, runScan_eq_scanLoop, hdecomp']
    conv_rhs => rw [hdecomp]
    rw [scanLoop_append, scanLoop_append, hlentake, Nat.zero_add]
    simp only [scanLoop]
    rw [scanStep_failed, hstep]
  · intro a t ha ht
    rw [runScan_eq_scanLoop]
    simp [scanLoop, scanStep, matched, extractSpotify, ha, ht]

/-- Witness for C4's amended theorem: replacing the dedup-skipped second
match of [Matched(A), Matched(A)] by a failed call leaves the output
unchanged, and the concrete interruption example emits one entry. -/
theorem call_failed_isolation_amended_witness :
    runScan 30 ([matched "A" "a", matched "A" "a"].set 1 CallResult.failed) =
      runScan 30 [matched "A" "a", matched "A" "a"] ∧
    runScan 30 [matched "A" "a", CallResult.failed, matched "A" "a"] =
      [⟨ts_from_idx 0 30, trackTitleOf "A" "a", none⟩] := by
  have h := call_failed_isolation_amended 30
    [matched "A" "a", matched "A" "a"] 1
  exact ⟨h.2.2.2.2.1 (matched "A" "a") (by decide) (by decide),
    h.2.2.2.2.2 "A" "a" rfl rfl⟩

/-! ### Correspondence between the scan and its index-instrumented variant -/

lemma scanStepIdx_relate (step : Nat)
    (acc : Option String × List (Nat × IdentifyResult))
    (item : Nat × CallResult) :
    scanStep step (acc.1, acc.2.map Prod.snd) item =
      ((scanStepIdx step acc item).1,
       (scanStepIdx step acc item).2.map Prod.snd) := by
  obtain ⟨idx, c⟩ := item
  cases c with
  | failed => rfl
  | response r =>
    cases r with
    | none => rfl
    | some res =>
      obtain ⟨a, t, sp⟩ := res
      cases a with
      | none => rfl
      | some artist =>
        cases t with
        | none => rfl
        | some title =>
          simp only [scanStep, scanStepIdx]
          split_ifs <;> simp

lemma scanLoopIdx_relate (step : Nat) (l : List CallResult) (idx : Nat)
    (acc : Option String × List (Nat × IdentifyResult)) :
    scanLoop step idx (acc.1, acc.2.map Prod.snd) l =
      ((scanLoopIdx step idx acc l).1,
       (scanLoopIdx step idx acc l).2.map Prod.snd) := by
  induction l generalizing idx acc with
  | nil => rfl
  | cons c rest ih =>
    show scanLoop step (idx + 1)
        (scanStep step (acc.1, acc.2.map Prod.snd) (idx, c)) rest = _
    rw [scanStepIdx_relate]
    exact ih (idx + 1) (scanStepIdx step acc (idx, c))

/-- One loop iteration preserves the ordering/dedup invariant: recorded
indices form a strictly increasing chain bounded by the running index,
adjacent recorded tracks differ, and the last emitted title mirrors the last
recorded track. -/
lemma scanStepIdx_inv (step idx : Nat) (c : CallResult)
    (acc : Option String × List (Nat × IdentifyResult))
    (h1 : List.Chain' (· < ·) (acc.2.map Prod.fst))
    (h2 : List.Chain' (· ≠ ·) (acc.2.map fun p => p.2.track))
    (h3 : ∀ p ∈ acc.2, p.1 < idx)
    (h4 : acc.1 = acc.2.getLast?.map fun p => p.2.track) :
    List.Chain' (· < ·) ((scanStepIdx step acc (idx, c)).2.map Prod.fst) ∧
    List.Chain' (· ≠ ·)
      ((scanStepIdx step acc (idx, c)).2.map fun p => p.2.track) ∧
    (∀ p ∈ (scanStepIdx step acc (idx, c)).2, p.1 < idx + 1) ∧
    (scanStepIdx step acc (idx, c)).1 =
      (scanStepIdx step acc (idx, c)).2.getLast?.map fun p => p.2.track := by
  have hweak : ∀ p ∈ acc.2, p.1 < idx + 1 :=
    fun p hp => Nat.lt_succ_of_lt (h3 p hp)
  have hemit : ∀ (artist title : String) (sp : JsonLink),
      artist.isEmpty = false → title.isEmpty = false →
      ¬some (trackTitleOf artist title) = acc.1 →
      List.Chain' (· < ·)
        ((acc.2 ++ [(idx, (⟨ts_from_idx idx step, trackTitleOf artist title,
          extractSpotify sp⟩ : IdentifyResult))]).map Prod.fst) ∧
      List.Chain' (· ≠ ·)
        ((acc.2 ++ [(idx, (⟨ts_from_idx idx step, trackTitleOf artist title,
          extractSpotify sp⟩ : IdentifyResult))]).map fun p => p.2.track) ∧
      (∀ p ∈ acc.2 ++ [(idx, (⟨ts_from_idx idx step,
          trackTitleOf artist title, extractSpotify sp⟩ : IdentifyResult))], p.1 < idx + 1) ∧
      some (trackTitleOf artist title) =
        (acc.2 ++ [(idx, (⟨ts_from_idx idx step, trackTitleOf artist title,
          extractSpotify sp⟩ : IdentifyResult))]).getLast?.map fun p => p.2.track := by
    intro artist title sp ha ht hne
    refine ⟨?_, ?_, ?_, ?_⟩
    · rw [List.map_append]
      refine List.Chain'.append h1 (List.chain'_singleton _) ?_
      intro x hx y hy
      have hyi : idx = y := by simpa using hy
      subst hyi
      obtain ⟨p, hp, hpx⟩ :=
        List.mem_map.mp (List.mem_of_getLast?_eq_some (Option.mem_def.mp hx))
      exact hpx ▸ h3 p hp
    · rw [List.map_append]
      refine List.Chain'.append h2 (List.chain'_singleton _) ?_
      intro x hx y hy
      have hy' : trackTitleOf artist title = y := by simpa using hy
      rw [List.getLast?_map] at hx
      have hx' : acc.1 = some x := h4.trans (Option.mem_def.mp hx)
      intro hxy
      apply hne
      rw [hx', hxy, ← hy']
    · intro p hp
      rcases List.mem_append.mp hp with hp | hp
      · exact hweak p hp
      · have hpe : p = (idx, (⟨ts_from_idx idx step, trackTitleOf artist title,
            extractSpotify sp⟩ : IdentifyResult)) := by simpa using hp
        subst hpe
        exact Nat.lt_succ_self idx
    · rw [List.getLast?_concat]
      rfl
  cases c with
  | failed => exact ⟨h1, h2, hweak, h4⟩
  | response r =>
    cases r with
    | none => exact ⟨h1, h2, hweak, h4⟩
    | some res =>
      obtain ⟨a, t, sp⟩ := res
      cases a with
      | none => exact ⟨h1, h2, hweak, h4⟩
      | some artist =>
        cases t with
        | none => exact ⟨h1, h2, hweak, h4⟩
        | some title =>
          by_cases hempty : artist.isEmpty || title.isEmpty
          · have : scanStepIdx step acc (idx, .response
                (some ⟨some artist, some title, sp⟩)) = acc := by
              simp [scanStepIdx, hempty]
            rw [this]
            exact ⟨h1, h2, hweak, h4⟩
          · by_cases hdup : some (trackTitleOf artist title) = acc.1
            · have : scanStepIdx step acc (idx, .response
                  (some ⟨some artist, some title, sp⟩)) = acc := by
                simp [scanStepIdx, hempty, hdup]
              rw [this]
              exact ⟨h1, h2, hweak, h4⟩
            · have hstep : scanStepIdx step acc (idx, .response
                  (some ⟨some artist, some title, sp⟩)) =
                  (some (trackTitleOf artist title),
                   acc.2 ++ [(idx, ⟨ts_from_idx idx step,
                     trackTitleOf artist title, extractSpotify sp⟩)]) := by
                simp [scanStepIdx, hempty, hdup]
              rw [hstep]
              have hsplit := Bool.or_eq_false_iff.mp (by simpa using hempty)
              exact hemit artist title sp hsplit.1 hsplit.2 hdup

lemma scanLoopIdx_inv (step : Nat) (l : List CallResult) (idx : Nat)
    (acc : Option String × List (Nat × IdentifyResult))
    (h1 : List.Chain' (· < ·) (acc.2.map Prod.fst))
    (h2 : List.Chain' (· ≠ ·) (acc.2.map fun p => p.2.track))
    (h3 : ∀ p ∈ acc.2, p.1 < idx)
    (h4 : acc.1 = acc.2.getLast?.map fun p => p.2.track) :
    List.Chain' (· < ·) ((scanLoopIdx step idx acc l).2.map Prod.fst) ∧
    List.Chain' (· ≠ ·)
      ((scanLoopIdx step idx acc l).2.map fun p => p.2.track) ∧
    (∀ p ∈ (scanLoopIdx step idx acc l).2, p.1 < idx + l.length) ∧
    (scanLoopIdx step idx acc l).1 =
      (scanLoopIdx step idx acc l).2.getLast?.map fun p => p.2.track := by
  induction l generalizing idx acc with
  | nil => exact ⟨h1, h2, fun p hp => by simpa using h3 p hp, h4⟩
  | cons c rest ih =>
    obtain ⟨g1, g2, g3, g4⟩ := scanStepIdx_inv step idx c acc h1 h2 h3 h4
    obtain ⟨k1, k2, k3, k4⟩ :=
      ih (idx + 1) (scanStepIdx step acc (idx, c)) g1 g2 g3 g4
    refine ⟨k1, k2, fun p hp => ?_, k4⟩
    have := k3 p hp
    simp only [List.length_cons]
    omega

/-- C6. Reducer output invariant: for every outcome sequence, the emitted
(non-sentinel) entries are strictly increasing by source segment index, no
two adjacent entries carry an identical title string, and the emitted
tracklist is exactly the index-instrumented scan with the indices
dropped. -/
theorem reducer_output_invariant (step : Nat) (outcomes : List CallResult) :
    List.Chain' (· < ·) ((runScanIdx step outcomes).map Prod.fst) ∧
    List.Chain' (fun e₁ e₂ : IdentifyResult => e₁.track ≠ e₂.track)
      ((runScanIdx step outcomes).map Prod.snd) ∧
    runScan step outcomes = (runScanIdx step outcomes).map Prod.snd ∧
    List.Chain' (fun e₁ e₂ : IdentifyResult => e₁.track ≠ e₂.track)
      (runScan step outcomes) := by
  have hinv := scanLoopIdx_inv step outcomes 0 (none, [])
    (by simp) (by simp) (by simp) rfl
  have hrel := scanLoopIdx_relate step outcomes 0 (none, [])
  have hmap : runScan step outcomes = (runScanIdx step outcomes).map Prod.snd := by
    rw [runScan_eq_scanLoop, runScanIdx]
    exact congrArg Prod.snd hrel
  have hchain : List.Chain' (fun e₁ e₂ : IdentifyResult => e₁.track ≠ e₂.track)
      ((runScanIdx step outcomes).map Prod.snd) := by
    rw [List.chain'_map]
    have h2 := hinv.2.1
    rw [List.chain'_map] at h2
    exact h2
  exact ⟨hinv.1, hchain, hmap, hmap ▸ hchain⟩

end Mixid
